import Mathlib

set_option maxRecDepth 10000

/-!
Verification of the Bitcoin peer-to-peer networking layer in
src/session8/network.py: the NetworkEnvelope framing codec, the message
catalog (Version, VerAck, Ping, Pong, GetHeaders, ...), and the SimpleNode
session dispatch loop.  Bytes are modelled as natural numbers (wire bytes
are 0–255), byte strings as List Nat, streams as lists consumed from the
front (Python's stream.read(n) becomes List.take n / List.drop n), and
fallible code returns Option/Except.
-/

/-! ### Double-SHA-256 checksum (helper.py collaborator)

Modelled from the spec: the hashing collaborator consumed by the core,
`hash256` from helper.py (not included under src/), described by the spec
as the double-application hash, `doubleHash(bytes) -> 32 bytes`: two rounds
of SHA-256 (FIPS 180-4).  The embedding below is a bit-faithful executable
SHA-256 over Nat with explicit reduction mod 2^32. -/

/-- Truncate to a 32-bit word. -/
def w32 (n : Nat) : Nat := n % 4294967296

/-- Rotate a 32-bit word right by `n` bits. -/
def rotr (n x : Nat) : Nat := x / 2 ^ n + x % 2 ^ n * 2 ^ (32 - n)

/-- Shift a 32-bit word right by `n` bits. -/
def shr32 (n x : Nat) : Nat := x / 2 ^ n

/-- SHA-256 message-schedule function sigma0. -/
def sSig0 (x : Nat) : Nat := Nat.xor (Nat.xor (rotr 7 x) (rotr 18 x)) (shr32 3 x)

/-- SHA-256 message-schedule function sigma1. -/
def sSig1 (x : Nat) : Nat := Nat.xor (Nat.xor (rotr 17 x) (rotr 19 x)) (shr32 10 x)

/-- SHA-256 compression function Sigma0. -/
def bSig0 (x : Nat) : Nat := Nat.xor (Nat.xor (rotr 2 x) (rotr 13 x)) (rotr 22 x)

/-- SHA-256 compression function Sigma1. -/
def bSig1 (x : Nat) : Nat := Nat.xor (Nat.xor (rotr 6 x) (rotr 11 x)) (rotr 25 x)

/-- SHA-256 choice function; `4294967295 - e` is the 32-bit complement of `e`. -/
def shaCh (e f g : Nat) : Nat := Nat.xor (Nat.land e f) (Nat.land (4294967295 - e) g)

/-- SHA-256 majority function. -/
def shaMaj (a b c : Nat) : Nat :=
  Nat.xor (Nat.xor (Nat.land a b) (Nat.land a c)) (Nat.land b c)

/-- SHA-256 working registers. -/
structure ShaRegs where
  a : Nat
  b : Nat
  c : Nat
  d : Nat
  e : Nat
  f : Nat
  g : Nat
  h : Nat
deriving DecidableEq

/-- SHA-256 initial hash value. -/
def shaInit : ShaRegs :=
  ⟨1779033703, 3144134277, 1013904242, 2773480762,
   1359893119, 2600822924, 528734635, 1541459225⟩

/-- The 64 SHA-256 round constants. -/
def shaK : List Nat :=
  [1116352408, 1899447441, 3049323471, 3921009573, 961987163,
   1508970993, 2453635748, 2870763221, 3624381080, 310598401,
   607225278, 1426881987, 1925078388, 2162078206, 2614888103,
   3248222580, 3835390401, 4022224774, 264347078, 604807628,
   770255983, 1249150122, 1555081692, 1996064986, 2554220882,
   2821834349, 2952996808, 3210313671, 3336571891, 3584528711,
   113926993, 338241895, 666307205, 773529912, 1294757372,
   1396182291, 1695183700, 1986661051, 2177026350, 2456956037,
   2730485921, 2820302411, 3259730800, 3345764771, 3516065817,
   3600352804, 4094571909, 275423344, 430227734, 506948616,
   659060556, 883997877, 958139571, 1322822218, 1537002063,
   1747873779, 1955562222, 2024104815, 2227730452, 2361852424,
   2428436474, 2756734187, 3204031479, 3329325298]

/-- Group a byte list into big-endian 32-bit words (4 bytes per word). -/
def toWords : List Nat → List Nat
  | b0 :: b1 :: b2 :: b3 :: rest =>
      (b0 * 0x1000000 + b1 * 0x10000 + b2 * 0x100 + b3) :: toWords rest
  | _ => []

/-- Extend the 16-word message schedule by `n` further words. -/
def extendW : Nat → List Nat → List Nat
  | 0, w => w
  | n + 1, w =>
      let i := w.length
      let x := w32 (sSig1 (w.getD (i - 2) 0) + w.getD (i - 7) 0 +
                    sSig0 (w.getD (i - 15) 0) + w.getD (i - 16) 0)
      extendW n (w ++ [x])

/-- One SHA-256 round, consuming a (round constant, schedule word) pair. -/
def shaRound (r : ShaRegs) (kw : Nat × Nat) : ShaRegs :=
  let t1 := w32 (r.h + bSig1 r.e + shaCh r.e r.f r.g + kw.1 + kw.2)
  let t2 := w32 (bSig0 r.a + shaMaj r.a r.b r.c)
  ⟨w32 (t1 + t2), r.a, r.b, r.c, w32 (r.d + t1), r.e, r.f, r.g⟩

/-- Compress one 64-byte block into the running state. -/
def shaCompress (st : ShaRegs) (block : List Nat) : ShaRegs :=
  let w := extendW 48 (toWords block)
  let r := (shaK.zip w).foldl shaRound st
  ⟨w32 (st.a + r.a), w32 (st.b + r.b), w32 (st.c + r.c), w32 (st.d + r.d),
   w32 (st.e + r.e), w32 (st.f + r.f), w32 (st.g + r.g), w32 (st.h + r.h)⟩

/-- Process 64-byte blocks; `fuel` bounds the number of blocks. -/
def processBlocks : Nat → ShaRegs → List Nat → ShaRegs
  | 0, st, _ => st
  | _ + 1, st, [] => st
  | fuel + 1, st, l => processBlocks fuel (shaCompress st (l.take 64)) (l.drop 64)

/-- Big-endian byte expansion of `n`, `len` bytes wide. -/
def beBytes : Nat → Nat → List Nat
  | 0, _ => []
  | len + 1, n => n / 2 ^ (8 * len) % 256 :: beBytes len (n % 2 ^ (8 * len))

/-- SHA-256 padding: 0x80, zeros to 56 mod 64, then the 8-byte bit length. -/
def shaPad (msg : List Nat) : List Nat :=
  let len := msg.length
  let zeros := (119 - len % 64) % 64
  msg ++ 0x80 :: List.replicate zeros 0 ++ beBytes 8 (len * 8)

/-- Big-endian bytes of one 32-bit word. -/
def wordBytes (w : Nat) : List Nat :=
  [w / 0x1000000 % 256, w / 0x10000 % 256, w / 0x100 % 256, w % 256]

/-- Serialize the final state to the 32-byte digest. -/
def shaDigest (r : ShaRegs) : List Nat :=
  wordBytes r.a ++ wordBytes r.b ++ wordBytes r.c ++ wordBytes r.d ++
  wordBytes r.e ++ wordBytes r.f ++ wordBytes r.g ++ wordBytes r.h

/-- SHA-256 of a byte list. -/
def sha256 (msg : List Nat) : List Nat :=
  let padded := shaPad msg
  shaDigest (processBlocks (padded.length / 64) shaInit padded)

/-- Modelled from the spec: `hash256` from helper.py (not under src/), the
double-application hash used for the envelope checksum. -/
def hash256 (msg : List Nat) : List Nat := sha256 (sha256 msg)

/-! ### Integer codecs (helper.py collaborators) -/

/-- Modelled from the spec: `little_endian_to_int` from helper.py (not under
src/), the `leToInt` collaborator: interpret a byte list as a little-endian
unsigned integer (Python int.from_bytes(b, little); the empty string maps to 0). -/
def little_endian_to_int (l : List Nat) : Nat := l.foldr (fun b acc => acc * 256 + b) 0

/-- Little-endian byte expansion of `n`, `len` bytes wide. -/
def leBytes : Nat → Nat → List Nat
  | 0, _ => []
  | len + 1, n => n % 256 :: leBytes len (n / 256)

/-- Modelled from the spec: `int_to_little_endian` from helper.py (not under
src/), the `intToLE(n, width)` collaborator; like Python int.to_bytes it fails
(OverflowError) when `n` does not fit in `width` bytes. -/
def int_to_little_endian (n len : Nat) : Option (List Nat) :=
  if n < 256 ^ len then some (leBytes len n) else none

/-- Modelled from the spec: `encode_varint` from helper.py (not under src/),
the Bitcoin variable-length integer encoding; fails above 2^64 - 1. -/
def encode_varint (n : Nat) : Option (List Nat) :=
  if n < 0xfd then some [n]
  else if n < 0x10000 then (int_to_little_endian n 2).map (fun b => 0xfd :: b)
  else if n < 0x100000000 then (int_to_little_endian n 4).map (fun b => 0xfe :: b)
  else if n < 0x10000000000000000 then (int_to_little_endian n 8).map (fun b => 0xff :: b)
  else none

/-! ### NetworkEnvelope (src/session8/network.py lines 24-86) -/

/-- The three networks of the MAGIC and PORT tables (network.py lines 24-33). -/
inductive Network where
  | mainnet
  | testnet
  | signet
deriving DecidableEq

/-- The MAGIC table (network.py lines 24-28). -/
def MAGIC : Network → List Nat
  | .mainnet => [0xf9, 0xbe, 0xb4, 0xd9]
  | .testnet => [0x0b, 0x11, 0x09, 0x07]
  | .signet => [0x0a, 0x03, 0xcf, 0x40]

/-- NetworkEnvelope's fields (network.py lines 36-40). -/
structure NetworkEnvelope where
  command : List Nat
  payload : List Nat
  magic : List Nat
deriving DecidableEq

/-- NetworkEnvelope.__init__ (network.py lines 37-40): the magic is looked up
from the network name. -/
def NetworkEnvelope.make (command payload : List Nat) (network : Network) :
    NetworkEnvelope :=
  ⟨command, payload, MAGIC network⟩

/-- The three distinct RuntimeError raise sites of NetworkEnvelope.parse
(network.py lines 51, 53-55, 67), distinguished by their messages; the
magic-mismatch message carries both the observed and the expected magic. -/
inductive ParseError where
  | connectionReset
  | magicMismatch (observed expected : List Nat)
  | checksumMismatch
deriving DecidableEq

/-- Python bytes.strip(b"\x00") as used on the command field (network.py
line 57): removes zero bytes from both ends. -/
def stripNulls (l : List Nat) : List Nat :=
  ((l.dropWhile (fun b => b == 0)).reverse.dropWhile (fun b => b == 0)).reverse

/-- NetworkEnvelope.parse (network.py lines 45-68).  The stream is the list of
bytes still unread; each s.read(n) takes n bytes from the front (fewer when the
stream is exhausted, as in Python). -/
def NetworkEnvelope.parse (s : List Nat) (network : Network) :
    Except ParseError NetworkEnvelope :=
  let magic := s.take 4
  if magic = [] then .error .connectionReset
  else if magic ≠ MAGIC network then .error (.magicMismatch magic (MAGIC network))
  else
    let r1 := s.drop 4
    let command := stripNulls (r1.take 12)
    let r2 := r1.drop 12
    let payload_length := little_endian_to_int (r2.take 4)
    let r3 := r2.drop 4
    let checksum := r3.take 4
    let r4 := r3.drop 4
    let payload := r4.take payload_length
    if (hash256 payload).take 4 ≠ checksum then .error .checksumMismatch
    else .ok ⟨command, payload, MAGIC network⟩

/-- NetworkEnvelope.serialize (network.py lines 70-82): magic, command padded
with zero bytes to 12 (Python's negative byte-repeat count yields the empty
string, matching truncated Nat subtraction), payload length as 4 little-endian
bytes, first 4 bytes of hash256 of the payload, then the payload. -/
def NetworkEnvelope.serialize (e : NetworkEnvelope) : Option (List Nat) :=
  (int_to_little_endian e.payload.length 4).map fun lenB =>
    e.magic ++ ((e.command ++ List.replicate (12 - e.command.length) 0) ++
      (lenB ++ ((hash256 e.payload).take 4 ++ e.payload)))

/-! ### Message catalog (src/session8/network.py lines 117-382) -/

/-- VersionMessage.command (network.py line 118): the ASCII bytes of version. -/
def VersionMessage.command : List Nat := [0x76, 0x65, 0x72, 0x73, 0x69, 0x6f, 0x6e]

/-- The set of values Python's randint(0, 2**64) can return, used for the
default nonce in VersionMessage.__init__ (network.py line 150): random.randint
is inclusive at both ends. -/
def version_default_nonce_possible (n : Nat) : Prop := n ≤ 2 ^ 64

/-- VerAckMessage.command (network.py line 202): the ASCII bytes of verack. -/
def VerAckMessage.command : List Nat := [0x76, 0x65, 0x72, 0x61, 0x63, 0x6b]

/-- VerAckMessage.serialize (network.py lines 212-213): the empty payload. -/
def VerAckMessage.serialize : List Nat := []

/-- PingMessage's field (network.py lines 220-221). -/
structure PingMessage where
  nonce : List Nat
deriving DecidableEq

/-- PingMessage.command (network.py line 217): the ASCII bytes of ping. -/
def PingMessage.command : List Nat := [0x70, 0x69, 0x6e, 0x67]

/-- PingMessage.parse (network.py lines 223-226): reads 8 bytes as the nonce. -/
def PingMessage.parse (s : List Nat) : PingMessage := ⟨s.take 8⟩

/-- PingMessage.serialize (network.py lines 228-229): exactly the nonce bytes. -/
def PingMessage.serialize (p : PingMessage) : List Nat := p.nonce

/-- PongMessage's field (network.py lines 236-237). -/
structure PongMessage where
  nonce : List Nat
deriving DecidableEq

/-- PongMessage.command (network.py line 233): the ASCII bytes of pong. -/
def PongMessage.command : List Nat := [0x70, 0x6f, 0x6e, 0x67]

/-- The body of PongMessage.parse (network.py lines 239-241): reads 8 bytes as
the nonce.  Note the source omits the classmethod decorator here (unlike
PingMessage.parse), so in Python the method cannot actually be invoked as
PongMessage.parse(stream); this embeds the intended body semantics. -/
def PongMessage.parse (s : List Nat) : PongMessage := ⟨s.take 8⟩

/-- PongMessage.serialize (network.py lines 243-244): exactly the nonce bytes. -/
def PongMessage.serialize (p : PongMessage) : List Nat := p.nonce

/-- GetHeadersMessage's fields after construction (network.py lines 251-260). -/
structure GetHeadersMessage where
  version : Nat
  num_hashes : Nat
  start_block : List Nat
  end_block : List Nat
deriving DecidableEq

/-- GetHeadersMessage.__init__ (network.py lines 251-260): a missing start
block raises a RuntimeError (modelled as none); a missing end block defaults
to 32 zero bytes. -/
def GetHeadersMessage.make (version num_hashes : Nat)
    (start_block end_block : Option (List Nat)) : Option GetHeadersMessage :=
  match start_block with
  | none => none
  | some sb => some ⟨version, num_hashes, sb, end_block.getD (List.replicate 32 0)⟩

/-- GetHeadersMessage.serialize (network.py lines 262-272): version as 4
little-endian bytes, number of hashes as a varint, then the start and end
blocks each byte-reversed. -/
def GetHeadersMessage.serialize (g : GetHeadersMessage) : Option (List Nat) :=
  match int_to_little_endian g.version 4, encode_varint g.num_hashes with
  | some v, some c => some (v ++ c ++ g.start_block.reverse ++ g.end_block.reverse)
  | _, _ => none

/-! ### SimpleNode session dispatch (src/session8/network.py lines 385-460) -/

/-- What SimpleNode.send(message) (network.py lines 406-415) emits for one
message: its command and its serialized payload (the envelope wraps exactly
these two). -/
structure SentMessage where
  command : List Nat
  payload : List Nat
deriving DecidableEq

/-- The auto-responses one iteration of SimpleNode.wait_for sends for an
inbound envelope (network.py lines 435-441): exactly one VerAck when the
command is version, exactly one Pong echoing the envelope payload as its
nonce when the command is ping, and nothing otherwise. -/
def autoReply (e : NetworkEnvelope) : List SentMessage :=
  if e.command = VersionMessage.command then
    [⟨VerAckMessage.command, VerAckMessage.serialize⟩]
  else if e.command = PingMessage.command then
    [⟨PongMessage.command, PongMessage.serialize ⟨e.payload⟩⟩]
  else []

/-- A message class as used by wait_for's dynamic dispatch: a command together
with the variant's payload decoder (the result type abstracts over the
heterogeneous Python classes). -/
structure MsgClass (α : Type) where
  command : List Nat
  parseFn : List Nat → α

/-- The command_to_class dict of SimpleNode.wait_for (network.py line 428):
a Python dict comprehension keeps the last class for a duplicated command,
hence the lookup searches the reversed list. -/
def commandToClass {α : Type} (classes : List (MsgClass α)) (cmd : List Nat) :
    Option (MsgClass α) :=
  classes.reverse.find? (fun m => m.command == cmd)

/-- SimpleNode.wait_for (network.py lines 424-447) with the inbound envelope
stream made explicit: each loop iteration reads the next envelope, sends the
auto-responses for its command, and stops as soon as the command is one of the
requested classes, decoding the payload with that class's parser.  Returns the
list of sent replies in send order together with the decoded result, or none
when the stream runs out while the loop is still waiting. -/
def waitFor {α : Type} (classes : List (MsgClass α)) :
    List NetworkEnvelope → Option (List SentMessage × α)
  | [] => none
  | e :: rest =>
    match commandToClass classes e.command with
    | some m => some (autoReply e, m.parseFn e.payload)
    | none =>
      match waitFor classes rest with
      | none => none
      | some (later, r) => some (autoReply e ++ later, r)

/-- The result of SimpleNode.is_tx_accepted (network.py lines 449-460) once the
awaited transaction reply has been decoded, as a function of the requested
transaction id and the decoded reply's id: the Python body returns True when
they are equal and otherwise falls off the end of the function, so the call
evaluates to None (modelled as none), not to the boolean False. -/
def is_tx_accepted_result (requestedId gotId : List Nat) : Option Bool :=
  if gotId = requestedId then some true else none

/-- A valid envelope for a configured network: the magic matches the network,
the command fits in the 12-byte field and carries no zero byte at either end
(parse strips zero bytes from both ends of the command field, so edge zero
bytes cannot survive a round trip), and the payload length fits the 4-byte
length field. -/
def ValidEnvelope (e : NetworkEnvelope) (n : Network) : Prop :=
  e.magic = MAGIC n ∧ e.command.length ≤ 12 ∧
  e.command.head? ≠ some 0 ∧ e.command.getLast? ≠ some 0 ∧
  e.payload.length < 2 ^ 32

instance (e : NetworkEnvelope) (n : Network) : Decidable (ValidEnvelope e n) := by
  unfold ValidEnvelope
  infer_instance

/-- The spec's concrete scenario A wire frame: mainnet magic, command verack
null-padded to 12 bytes, length 0, checksum 5df6e0e2. -/
def scenarioAFrame : List Nat :=
  [0xf9, 0xbe, 0xb4, 0xd9,
   0x76, 0x65, 0x72, 0x61, 0x63, 0x6b, 0x00, 0x00, 0x00, 0x00, 0x00, 0x00,
   0x00, 0x00, 0x00, 0x00,
   0x5d, 0xf6, 0xe0, 0xe2]

/-- The 32-byte start block hash of GetHeadersMessageTest.test_serialize
(network.py line 277). -/
def scenarioBStart : List Nat :=
  [0x00, 0x00, 0x00, 0x00, 0x00, 0x00, 0x00, 0x00, 0x00, 0x12, 0x37, 0xf4,
   0x6a, 0xcd, 0xdf, 0x58, 0x57, 0x8a, 0x37, 0xe2, 0x13, 0xd2, 0xa6, 0xed,
   0xc4, 0x88, 0x4a, 0x2f, 0xca, 0xd0, 0x5b, 0xa3]

/-! ### Basic lemmas about the embedding -/

theorem leBytes_length (len : Nat) : ∀ n, (leBytes len n).length = len := by
  induction len with
  | zero => intro n; rfl
  | succ k ih => intro n; simp [leBytes, ih]

theorem little_endian_to_int_cons (b : Nat) (t : List Nat) :
    little_endian_to_int (b :: t) = little_endian_to_int t * 256 + b := rfl

theorem little_endian_to_int_leBytes (len : Nat) :
    ∀ n, little_endian_to_int (leBytes len n) = n % 256 ^ len := by
  induction len with
  | zero => intro n; simp [leBytes, little_endian_to_int, Nat.mod_one]
  | succ k ih =>
    intro n
    rw [leBytes, little_endian_to_int_cons, ih]
    have h : n % (256 * 256 ^ k) = n % 256 + 256 * (n / 256 % 256 ^ k) := Nat.mod_mul
    rw [pow_succ, mul_comm (256 ^ k) 256, h]
    ring

theorem shaDigest_length (r : ShaRegs) : (shaDigest r).length = 32 := rfl

theorem sha256_length (msg : List Nat) : (sha256 msg).length = 32 := shaDigest_length _

theorem hash256_length (msg : List Nat) : (hash256 msg).length = 32 := sha256_length _

theorem dropWhile_zero_replicate (k : Nat) (l : List Nat) :
    List.dropWhile (fun b => b == 0) (List.replicate k 0 ++ l) =
      List.dropWhile (fun b => b == 0) l := by
  induction k with
  | zero => simp
  | succ m ih => simp [List.replicate_succ, List.dropWhile_cons, ih]

theorem dropWhile_zero_of_head (l : List Nat) (h : l.head? ≠ some 0) :
    List.dropWhile (fun b => b == 0) l = l := by
  cases l with
  | nil => rfl
  | cons a t =>
    have ha : a ≠ 0 := by
      intro h0
      exact h (by simp [h0])
    simp [List.dropWhile_cons, ha]

theorem stripNulls_pad (c : List Nat) (k : Nat)
    (hh : c.head? ≠ some 0) (hl : c.getLast? ≠ some 0) :
    stripNulls (c ++ List.replicate k 0) = c := by
  cases c with
  | nil =>
    have h1 : List.dropWhile (fun b => b == 0) (List.replicate k 0) = [] := by
      simp [dropWhile_zero_replicate k []]
    simp [stripNulls, h1]
  | cons a t =>
    have ha : a ≠ 0 := by
      intro h0
      exact hh (by simp [h0])
    have h1 : List.dropWhile (fun b => b == 0) (a :: (t ++ List.replicate k 0)) =
        a :: (t ++ List.replicate k 0) := by
      simp [List.dropWhile_cons, ha]
    have h3 : List.dropWhile (fun b => b == 0) (t.reverse ++ [a]) = t.reverse ++ [a] := by
      have h4 := dropWhile_zero_of_head ((a :: t).reverse)
        (by rw [List.head?_reverse]; exact hl)
      simpa using h4
    simp [stripNulls, h1, List.reverse_append, dropWhile_zero_replicate, h3]

theorem MAGIC_length (n : Network) : (MAGIC n).length = 4 := by
  cases n <;> rfl

theorem MAGIC_ne_nil (n : Network) : MAGIC n ≠ [] := by
  cases n <;> simp [MAGIC]

theorem serialize_eq (cmd p m : List Nat) (hp : p.length < 256 ^ 4) :
    NetworkEnvelope.serialize ⟨cmd, p, m⟩ =
      some (m ++ ((cmd ++ List.replicate (12 - cmd.length) 0) ++
        (leBytes 4 p.length ++ ((hash256 p).take 4 ++ p)))) := by
  have h1 : int_to_little_endian p.length 4 = some (leBytes 4 p.length) := by
    rw [int_to_little_endian, if_pos hp]
  simp only [NetworkEnvelope.serialize, h1, Option.map_some']

theorem parse_frame (cmd p : List Nat) (n : Network)
    (hc : cmd.length ≤ 12) (hh : cmd.head? ≠ some 0) (hl : cmd.getLast? ≠ some 0)
    (hp : p.length < 256 ^ 4) :
    NetworkEnvelope.parse
      (MAGIC n ++ ((cmd ++ List.replicate (12 - cmd.length) 0) ++
        (leBytes 4 p.length ++ ((hash256 p).take 4 ++ p)))) n =
      .ok ⟨cmd, p, MAGIC n⟩ := by
  have hpadlen : (cmd ++ List.replicate (12 - cmd.length) 0).length = 12 := by
    simp only [List.length_append, List.length_replicate]
    omega
  have hchklen : ((hash256 p).take 4).length = 4 := by
    simp [List.length_take, hash256_length]
  have hlenB : (leBytes 4 p.length).length = 4 := leBytes_length 4 _
  simp only [NetworkEnvelope.parse]
  rw [List.take_left' (MAGIC_length n), List.drop_left' (MAGIC_length n)]
  rw [List.take_left' hpadlen, List.drop_left' hpadlen]
  rw [List.take_left' hlenB, List.drop_left' hlenB]
  rw [little_endian_to_int_leBytes, Nat.mod_eq_of_lt hp]
  rw [List.take_left' hchklen, List.drop_left' hchklen]
  rw [List.take_length]
  rw [stripNulls_pad cmd _ hh hl]
  rw [if_neg (MAGIC_ne_nil n)]
  rw [if_neg (show ¬ (MAGIC n ≠ MAGIC n) from fun hcon => hcon rfl)]
  rw [if_neg (show ¬ ((hash256 p).take 4 ≠ (hash256 p).take 4) from fun hcon => hcon rfl)]

/-! ### Claim theorems -/

/-- C1 counterexample: the round-trip law fails as stated.  The envelope with
command [0] (a single zero byte, well within 12 bytes), empty payload and
mainnet magic is valid per the claim, yet parsing its serialization yields the
envelope with the empty command, because parse strips zero bytes from both
ends of the 12-byte command field while serialize only appends them. -/
theorem envelope_round_trip_counterexample :
    (NetworkEnvelope.make [0] [] .mainnet).command.length ≤ 12 ∧
    (NetworkEnvelope.make [0] [] .mainnet).magic = MAGIC .mainnet ∧
    ((NetworkEnvelope.make [0] [] .mainnet).serialize.map
        (fun bs => NetworkEnvelope.parse bs .mainnet)) =
      some (.ok (NetworkEnvelope.make [] [] .mainnet)) ∧
    NetworkEnvelope.make [] [] .mainnet ≠ NetworkEnvelope.make [0] [] .mainnet :=
  ⟨by decide, by decide, rfl, by decide⟩

/-- C1 (amended): for every envelope whose magic matches the configured
network, whose command is at most 12 bytes with no zero byte at either end,
and whose payload fits the 4-byte length field, serialization succeeds and
parse(serialize(e)) = e; and every wire frame produced by serializing such an
envelope parses to an envelope that re-serializes to the identical bytes. -/
theorem envelope_round_trip (e : NetworkEnvelope) (n : Network)
    (h : ValidEnvelope e n) :
    (∃ bs, e.serialize = some bs ∧ NetworkEnvelope.parse bs n = .ok e) ∧
    (∀ bs, e.serialize = some bs →
      ∃ e', NetworkEnvelope.parse bs n = .ok e' ∧ e'.serialize = some bs) := by
  obtain ⟨c, p, m⟩ := e
  simp only [ValidEnvelope] at h
  obtain ⟨hm, hc, hh, hl, hp⟩ := h
  subst hm
  have hpow : (256 : Nat) ^ 4 = 2 ^ 32 := by norm_num
  have hp' : p.length < 256 ^ 4 := by rw [hpow]; exact hp
  have hs := serialize_eq c p (MAGIC n) hp'
  have hparse := parse_frame c p n hc hh hl hp'
  refine ⟨⟨_, hs, hparse⟩, ?_⟩
  intro bs hbs
  rw [hs] at hbs
  injection hbs with hbs'
  subst hbs'
  exact ⟨⟨c, p, MAGIC n⟩, hparse, hs⟩

/-- C1 witness: the amended round trip evaluated on the concrete verack
envelope of the spec's scenario A. -/
theorem envelope_round_trip_witness :
    ValidEnvelope (NetworkEnvelope.make VerAckMessage.command [] .mainnet) .mainnet ∧
    ((∃ bs, (NetworkEnvelope.make VerAckMessage.command [] .mainnet).serialize = some bs ∧
        NetworkEnvelope.parse bs .mainnet =
          .ok (NetworkEnvelope.make VerAckMessage.command [] .mainnet)) ∧
     (∀ bs, (NetworkEnvelope.make VerAckMessage.command [] .mainnet).serialize = some bs →
        ∃ e', NetworkEnvelope.parse bs .mainnet = .ok e' ∧ e'.serialize = some bs)) :=
  ⟨by decide, envelope_round_trip (NetworkEnvelope.make VerAckMessage.command [] .mainnet)
    .mainnet (by decide)⟩

/-- C4: parse on an empty stream (s.read(4) returns zero bytes) fails with the
connection-closed error, a constructor distinct from the malformed-frame
errors; and on a nonempty stream whose first up-to-4 bytes differ from the
configured network's magic it fails with the magic-mismatch error carrying
both the observed and the expected magic, returning no envelope. -/
theorem parse_magic_errors (s : List Nat) (n : Network) :
    NetworkEnvelope.parse [] n = .error .connectionReset ∧
    (s ≠ [] → s.take 4 ≠ MAGIC n →
      NetworkEnvelope.parse s n = .error (.magicMismatch (s.take 4) (MAGIC n))) := by
  constructor
  · simp [NetworkEnvelope.parse]
  · intro hne hmag
    have ht : s.take 4 ≠ [] := by
      cases s with
      | nil => exact absurd rfl hne
      | cons a t => simp
    simp only [NetworkEnvelope.parse]
    rw [if_neg ht, if_pos hmag]

/-- C4 witness: the two error paths evaluated concretely: the empty stream,
and a stream starting with bytes 12 34 parsed as mainnet. -/
theorem parse_magic_errors_witness :
    NetworkEnvelope.parse [] .mainnet = .error .connectionReset ∧
    NetworkEnvelope.parse [0x12, 0x34] .mainnet =
      .error (.magicMismatch ([0x12, 0x34].take 4) (MAGIC .mainnet)) :=
  ⟨(parse_magic_errors [0x12, 0x34] .mainnet).1,
   (parse_magic_errors [0x12, 0x34] .mainnet).2 (by decide) (by decide)⟩

/-- C6: parsing the spec's scenario-A hex frame as a mainnet envelope succeeds
with command verack and empty payload, and re-serializing the parsed envelope
reproduces the identical byte string. -/
theorem scenario_a_parse_serialize :
    NetworkEnvelope.parse scenarioAFrame .mainnet =
      .ok (NetworkEnvelope.make VerAckMessage.command [] .mainnet) ∧
    (NetworkEnvelope.make VerAckMessage.command [] .mainnet).serialize =
      some scenarioAFrame :=
  ⟨rfl, rfl⟩

/-- C5: a GetHeadersMessage built with version 70015, num_hashes 1, a 32-byte
start block and no end block gets its stop hash defaulted to 32 zero bytes and
serializes to version as 4 little-endian bytes, varint(1), the start hash
byte-reversed, then 32 zero bytes, in that order. -/
theorem getheaders_default_serialize (sb : List Nat) (_h : sb.length = 32) :
    (GetHeadersMessage.make 70015 1 (some sb) none).bind GetHeadersMessage.serialize =
      some ([0x7f, 0x11, 0x01, 0x00] ++ [1] ++ sb.reverse ++ List.replicate 32 0) := by
  have h1 : int_to_little_endian 70015 4 = some [0x7f, 0x11, 0x01, 0x00] := rfl
  have h2 : encode_varint 1 = some [1] := rfl
  simp [GetHeadersMessage.make, GetHeadersMessage.serialize, h1, h2]

/-- C5 witness: the serialization evaluated on the 32-byte start block of
GetHeadersMessageTest.test_serialize. -/
theorem getheaders_default_serialize_witness :
    scenarioBStart.length = 32 ∧
    (GetHeadersMessage.make 70015 1 (some scenarioBStart) none).bind
        GetHeadersMessage.serialize =
      some ([0x7f, 0x11, 0x01, 0x00] ++ [1] ++ scenarioBStart.reverse ++
        List.replicate 32 0) :=
  ⟨by decide, getheaders_default_serialize scenarioBStart (by decide)⟩

/-- C7: Ping and Pong are symmetric carriers of the nonce: for each, parse
takes 8 bytes from the stream as the nonce, serialize returns exactly the
nonce bytes, and parsing the serialization of a message with an 8-byte nonce
returns a message with the same nonce. -/
theorem ping_pong_nonce (s nb : List Nat) (h : nb.length = 8) :
    (PingMessage.parse s).nonce = s.take 8 ∧
    (PongMessage.parse s).nonce = s.take 8 ∧
    PingMessage.serialize ⟨nb⟩ = nb ∧
    PongMessage.serialize ⟨nb⟩ = nb ∧
    PingMessage.parse (PingMessage.serialize ⟨nb⟩) = ⟨nb⟩ ∧
    PongMessage.parse (PongMessage.serialize ⟨nb⟩) = ⟨nb⟩ := by
  have ht : nb.take 8 = nb := by
    rw [← h]
    exact List.take_length nb
  refine ⟨rfl, rfl, rfl, rfl, ?_, ?_⟩
  · show PingMessage.mk (nb.take 8) = PingMessage.mk nb
    rw [ht]
  · show PongMessage.mk (nb.take 8) = PongMessage.mk nb
    rw [ht]

/-- C7 witness: the nonce pass-through evaluated on the 8-byte nonce
01..08 and the stream 09 0a. -/
theorem ping_pong_nonce_witness :
    (PingMessage.parse [9, 10]).nonce = [9, 10].take 8 ∧
    (PongMessage.parse [9, 10]).nonce = [9, 10].take 8 ∧
    PingMessage.serialize ⟨[1, 2, 3, 4, 5, 6, 7, 8]⟩ = [1, 2, 3, 4, 5, 6, 7, 8] ∧
    PongMessage.serialize ⟨[1, 2, 3, 4, 5, 6, 7, 8]⟩ = [1, 2, 3, 4, 5, 6, 7, 8] ∧
    PingMessage.parse (PingMessage.serialize ⟨[1, 2, 3, 4, 5, 6, 7, 8]⟩) =
      ⟨[1, 2, 3, 4, 5, 6, 7, 8]⟩ ∧
    PongMessage.parse (PongMessage.serialize ⟨[1, 2, 3, 4, 5, 6, 7, 8]⟩) =
      ⟨[1, 2, 3, 4, 5, 6, 7, 8]⟩ :=
  ping_pong_nonce [9, 10] [1, 2, 3, 4, 5, 6, 7, 8] (by decide)

/-- C2: whenever wait_for returns, the consumed inbound stream splits into a
prefix of envelopes none of whose commands is in the requested class map (the
wait never terminates on them) followed by the first envelope whose command is
requested; the result is that envelope's payload decoded by the matching
class's parser, and the messages sent are exactly the concatenated
auto-replies of every consumed envelope, the terminating one included: one
VerAck per version command and one Pong echoing the payload per ping command,
whether or not version or ping is itself requested. -/
theorem wait_for_dispatch {α : Type} (classes : List (MsgClass α)) :
    ∀ (inbound : List NetworkEnvelope) (sent : List SentMessage) (res : α),
      waitFor classes inbound = some (sent, res) →
      ∃ pre e rest cls,
        inbound = pre ++ e :: rest ∧
        (∀ x ∈ pre, commandToClass classes x.command = none) ∧
        commandToClass classes e.command = some cls ∧
        res = cls.parseFn e.payload ∧
        sent = (pre ++ [e]).flatMap autoReply := by
  intro inbound
  induction inbound with
  | nil =>
    intro sent res h
    simp [waitFor] at h
  | cons e rest ih =>
    intro sent res h
    rw [waitFor] at h
    cases hcc : commandToClass classes e.command with
    | some m =>
      rw [hcc] at h
      simp only [Option.some.injEq, Prod.mk.injEq] at h
      obtain ⟨h1, h2⟩ := h
      refine ⟨[], e, rest, m, rfl, by simp, hcc, h2.symm, ?_⟩
      simp [← h1]
    | none =>
      rw [hcc] at h
      cases hw : waitFor classes rest with
      | none =>
        rw [hw] at h
        simp at h
      | some pr =>
        obtain ⟨later, r⟩ := pr
        rw [hw] at h
        simp only [Option.some.injEq, Prod.mk.injEq] at h
        obtain ⟨h1, h2⟩ := h
        obtain ⟨pre', e', rest', cls', hsplit, hpre, hlook, hres, hsent⟩ := ih later r hw
        refine ⟨e :: pre', e', rest', cls', by simp [hsplit], ?_, hlook, ?_, ?_⟩
        · intro x hx
          rcases List.mem_cons.mp hx with hx | hx
          · rw [hx]
            exact hcc
          · exact hpre x hx
        · rw [← h2, hres]
        · rw [← h1, hsent]
          simp

/-- C2 witness: a session waiting only for VerAck first receives a Ping with
nonce 01..08, auto-replies with exactly one Pong echoing that nonce without
terminating, then terminates on the VerAck envelope, decoding its payload with
the VerAck class's parser. -/
theorem wait_for_dispatch_witness :
    ∃ pre e rest cls,
      [NetworkEnvelope.make PingMessage.command [1, 2, 3, 4, 5, 6, 7, 8] .mainnet,
       NetworkEnvelope.make VerAckMessage.command [] .mainnet] = pre ++ e :: rest ∧
      (∀ x ∈ pre,
        commandToClass [(⟨VerAckMessage.command, fun p => p.length⟩ : MsgClass Nat)]
          x.command = none) ∧
      commandToClass [(⟨VerAckMessage.command, fun p => p.length⟩ : MsgClass Nat)]
        e.command = some cls ∧
      (0 : Nat) = cls.parseFn e.payload ∧
      [(⟨PongMessage.command, [1, 2, 3, 4, 5, 6, 7, 8]⟩ : SentMessage)] =
        (pre ++ [e]).flatMap autoReply :=
  wait_for_dispatch [(⟨VerAckMessage.command, fun p => p.length⟩ : MsgClass Nat)]
    [NetworkEnvelope.make PingMessage.command [1, 2, 3, 4, 5, 6, 7, 8] .mainnet,
     NetworkEnvelope.make VerAckMessage.command [] .mainnet]
    [(⟨PongMessage.command, [1, 2, 3, 4, 5, 6, 7, 8]⟩ : SentMessage)] 0 rfl

/-- C8: the code evaluated at mismatched identifiers: is_tx_accepted yields
True when the decoded reply's id equals the requested one, but yields no value
at all (Python None, modelled none) rather than the boolean False when they
differ, contradicting the claim that the result is always a boolean. -/
theorem is_tx_accepted_mismatch_result :
    is_tx_accepted_result [0] [0] = some true ∧
    is_tx_accepted_result [0] [1] = none ∧
    (∀ b : Bool, is_tx_accepted_result [0] [1] ≠ some b) := by
  refine ⟨rfl, rfl, ?_⟩
  intro b hb
  simp [is_tx_accepted_result] at hb

/-- C9: the code evaluated at the boundary draw: Python's randint(0, 2**64) is
inclusive, so the default Version nonce generator can produce 2^64 itself, and
the 8-byte little-endian encoding of that value fails (int.to_bytes overflow);
every strictly smaller draw encodes fine, so the claimed always-succeeds
property fails exactly at this value. -/
theorem version_default_nonce_overflow :
    version_default_nonce_possible (2 ^ 64) ∧
    int_to_little_endian (2 ^ 64) 8 = none ∧
    (∀ m, m < 2 ^ 64 → int_to_little_endian m 8 = some (leBytes 8 m)) := by
  have hpow : (256 : Nat) ^ 8 = 2 ^ 64 := by norm_num
  refine ⟨le_refl _, ?_, ?_⟩
  · rw [int_to_little_endian, if_neg]
    rw [hpow]
    exact lt_irrefl _
  · intro m hm
    rw [int_to_little_endian, if_pos]
    rw [hpow]
    exact hm

/-- C9 witness: an in-range draw encodes successfully. -/
theorem version_default_nonce_overflow_witness :
    int_to_little_endian 5 8 = some (leBytes 8 5) :=
  version_default_nonce_overflow.2.2 5 (by norm_num)

/-- C10: a serialized frame has total length 24 + payload length (equivalently
a 12-byte command field) exactly when the command is at most 12 bytes; a
longer command is emitted unpadded and untruncated, so the frame is the magic,
the raw command, the length field, the checksum and the payload, and its
length breaks the fixed 24-byte header layout. -/
theorem serialize_command_padding (c p : List Nat) (n : Network) (bs : List Nat)
    (h : (NetworkEnvelope.make c p n).serialize = some bs) :
    (bs.length = 24 + p.length ↔ c.length ≤ 12) ∧
    (12 < c.length →
      bs = MAGIC n ++ (c ++ (leBytes 4 p.length ++ ((hash256 p).take 4 ++ p)))) := by
  have hp : p.length < 256 ^ 4 := by
    by_contra hnp
    have hnone : int_to_little_endian p.length 4 = none := by
      rw [int_to_little_endian, if_neg hnp]
    simp only [NetworkEnvelope.make, NetworkEnvelope.serialize, hnone] at h
    simp at h
  have hs := serialize_eq c p (MAGIC n) hp
  simp only [NetworkEnvelope.make] at h
  rw [hs] at h
  injection h with h'
  subst h'
  constructor
  · simp [List.length_append, MAGIC_length, leBytes_length, List.length_take,
      hash256_length]
    omega
  · intro h12
    have h0 : 12 - c.length = 0 := by omega
    rw [h0]
    simp

/-- C10 witness: a 13-byte command (thirteen 0x61 bytes) with empty payload on
mainnet serializes to a 25-byte frame, which is not 24 bytes and carries the
command unpadded and untruncated. -/
theorem serialize_command_padding_witness :
    (([0xf9, 0xbe, 0xb4, 0xd9, 0x61, 0x61, 0x61, 0x61, 0x61, 0x61, 0x61, 0x61,
       0x61, 0x61, 0x61, 0x61, 0x61, 0x00, 0x00, 0x00, 0x00, 0x5d, 0xf6, 0xe0,
       0xe2] : List Nat).length = 24 + ([] : List Nat).length ↔
      (List.replicate 13 0x61).length ≤ 12) ∧
    (12 < (List.replicate 13 0x61).length →
      ([0xf9, 0xbe, 0xb4, 0xd9, 0x61, 0x61, 0x61, 0x61, 0x61, 0x61, 0x61, 0x61,
        0x61, 0x61, 0x61, 0x61, 0x61, 0x00, 0x00, 0x00, 0x00, 0x5d, 0xf6, 0xe0,
        0xe2] : List Nat) = MAGIC .mainnet ++ (List.replicate 13 0x61 ++
          (leBytes 4 ([] : List Nat).length ++ ((hash256 []).take 4 ++ [])))) :=
  serialize_command_padding (List.replicate 13 0x61) [] .mainnet
    [0xf9, 0xbe, 0xb4, 0xd9, 0x61, 0x61, 0x61, 0x61, 0x61, 0x61, 0x61, 0x61,
     0x61, 0x61, 0x61, 0x61, 0x61, 0x00, 0x00, 0x00, 0x00, 0x5d, 0xf6, 0xe0,
     0xe2] rfl
